import Mathlib

/-!
Verification of the texture subsystem of PicoRenderer (src/rasterizer/texture.c).

The C code is shallowly embedded: machine-integer texture sizes become `Nat`
(the zero-size cases are rejected before any arithmetic that could wrap),
byte values become `Nat` with an explicit `% 256` where the source casts to
`PRubyte`, float texture coordinates become exact rationals `ℚ` with C casts
to `PRint` embedded as truncation toward zero, buffers become `List Nat`,
and the texel pointer of `pr_texture` becomes an allocation identifier paired
with the buffer contents, so that reuse versus reallocation of the storage is
observable.  Fallible operations return their success flag together with the
process-wide last-error value they leave behind.
-/

namespace Pico

/-- Modelled from the spec: the error taxonomy of §7 (the numeric constants
live in `error_ids.h`, which is not under `src/`).  Only the codes reachable
from the texture subsystem are needed. -/
inductive PRerror where
  | noError
  | nullPointer
  | invalidArgument
deriving DecidableEq, Repr

/-- Modelled from the spec: the single accepted packed 24-bit RGB input
format (spec §4.2; the enum constant lives in `enums.h`, which is not under
`src/`).  Its numeric value is immaterial, only its distinctness from other
format values matters. -/
def PR_IMAGE_FORMAT_UBYTE_RGB : Nat := 0

/-- One halving step of a mip dimension, the pattern
`if (w > 1) w /= 2;` that `texture.c` repeats in `_pr_texture_image2d`
and `_pr_texture_select_miplevel`. -/
def halve (n : Nat) : Nat := if 1 < n then n / 2 else n

/-- The number of mip levels counted by the `while (1)` loop of
`_pr_texture_image2d` (texture.c:183-197): count the current level, stop once
both dimensions reached 1, otherwise halve.  The source loop tests
`w == 1 && h == 1`; we guard with `≤ 1` so the function is total — the two
conditions agree on the reachable inputs `w, h ≥ 1` (the caller has already
rejected zero sizes, on which the C loop would not terminate). -/
def mipChainCount (w h : Nat) : Nat :=
  if w ≤ 1 ∧ h ≤ 1 then 1
  else 1 + mipChainCount (halve w) (halve h)
termination_by w + h
decreasing_by
  simp only [halve]
  split <;> split <;> omega

/-- The texel total accumulated by the same loop
(`numTexels += w*h` in texture.c:186): the `w*h` of the current level plus the
totals of the halved chain. -/
def mipChainTexels (w h : Nat) : Nat :=
  if w ≤ 1 ∧ h ≤ 1 then w * h
  else w * h + mipChainTexels (halve w) (halve h)
termination_by w + h
decreasing_by
  simp only [halve]
  split <;> split <;> omega

/-- Modelled from the spec: the `PR_MIP_SIZE` macro used by
`_pr_texture_select_miplevel` (texture.c:302-303) lives in a header that is
not under `src/`; spec §3 fixes the level dimensions as
floor-or-one(size >> level). -/
def PR_MIP_SIZE (size mip : Nat) : Nat := max (size >>> mip) 1

/-- Modelled from the spec: the `PR_CLAMP` macro used by
`_pr_texture_select_miplevel` (texture.c:296) lives in a header that is not
under `src/`; spec §4.2 says the level is clamped into range before lookup. -/
def PR_CLAMP (x lo hi : Nat) : Nat := max lo (min x hi)

/-- The texture record of texture.h: base dimensions, mip count, and the
texel storage.  The C `PRubyte* texels` pointer is modelled as
`Option (allocation id × contents)`; `none` models a null pointer, and the
allocation id lets reuse of the same storage be distinguished from a fresh
allocation. -/
structure pr_texture where
  width : Nat
  height : Nat
  mips : Nat
  texels : Option (Nat × List Nat)
deriving DecidableEq, Repr

/-- The state `_pr_texture_create` returns (texture.c:137-148): zero
dimensions, zero mips, null texel pointer. -/
def _pr_texture_create : pr_texture :=
  { width := 0, height := 0, mips := 0, texels := none }

/-- An RGB image as the C code reads it: `data x y i` is
`data[((y)*width + (x))*3 + (i)]`, the `COLOR` macro of
`_image_scale_down_ubyte_rgb` (texture.c:66). -/
abbrev PRimage := Nat → Nat → Nat → Nat

/-- A per-pixel color-index conversion `x → y → channels → index`, standing
for the external `_pr_image_color_to_colorindex_r3g3b2` of image.c (not under
`src/`) at a fixed dither setting; it is kept as a parameter of the embedding
so every theorem below holds for any conversion, dithered or not. -/
abbrev PRquantizer := Nat → Nat → (Nat → Nat) → Nat

/-- Modelled from the spec: the undithered 3-3-2 quantization of
`_pr_image_color_to_colorindex_r3g3b2` (image.c is not under `src/`): spec
§3/§4.1 says quantization truncates red and green to 3 bits and blue to 2
bits.  Used only to instantiate the parametric theorems on concrete data. -/
def _pr_color_to_colorindex_r3g3b2 : PRquantizer :=
  fun _ _ c => (c 0 / 32) * 32 + (c 1 / 32) * 4 + c 2 / 64

/-- `_color_box4_blur` (texture.c:46-54): sum the four bytes in a `PRint`
(no overflow for byte inputs), divide by 4, cast back to `PRubyte`. -/
def _color_box4_blur (a b c d : Nat) : Nat := ((a + b + c + d) / 4) % 256

/-- `_color_box2_blur` (texture.c:56-62). -/
def _color_box2_blur (a b : Nat) : Nat := ((a + b) / 2) % 256

/-- `_image_scale_down_ubyte_rgb` (texture.c:64-121) as a function on
images: the 2×2 box filter when both dimensions exceed 1, the 2×1 strip
filter when only the width does (the source writes only row 0 of the scaled
image, whose height is 1, so the result does not depend on `y` there), the
1×2 strip filter when only the height does, and the zero fill from calloc when
neither branch runs. -/
def _image_scale_down_ubyte_rgb (width height : Nat) (data : PRimage) : PRimage :=
  fun x y i =>
    if 1 < width ∧ 1 < height then
      _color_box4_blur
        (data (x * 2) (y * 2) i)
        (data (x * 2 + 1) (y * 2) i)
        (data (x * 2 + 1) (y * 2 + 1) i)
        (data (x * 2) (y * 2 + 1) i)
    else if 1 < width then
      _color_box2_blur (data (x * 2) 0 i) (data (x * 2 + 1) 0 i)
    else if 1 < height then
      _color_box2_blur (data 0 (y * 2) i) (data 0 (y * 2 + 1) i)
    else 0

/-- `_image_scale_down` (texture.c:123-133): dispatch on the format,
returning `none` (the C `NULL`) for any format other than the packed RGB
one. -/
def _image_scale_down (width height : Nat) (format : Nat) (data : PRimage) :
    Option PRimage :=
  if format = PR_IMAGE_FORMAT_UBYTE_RGB then
    some (_image_scale_down_ubyte_rgb width height data)
  else none

/-- The row-major color-index buffer that
`_pr_image_color_to_colorindex_r3g3b2` writes for a `width × height` image:
entry `y*width + x` is the conversion of pixel `(x, y)`. -/
def quantize_image (q : PRquantizer) (width height : Nat) (data : PRimage) :
    List Nat :=
  (List.range (width * height)).map fun k =>
    q (k % width) (k / width) (data (k % width) (k / width))

/-- `_texture_subimage2d` (texture.c:20-38): on a format other than the
packed RGB one it records `InvalidArgument` and writes nothing (`none`);
otherwise it hands the image to the external conversion, which fills the
destination slice (`some` of the written bytes). -/
def _texture_subimage2d (q : PRquantizer) (width height : Nat) (format : Nat)
    (data : PRimage) : Option (List Nat) :=
  if format = PR_IMAGE_FORMAT_UBYTE_RGB then some (quantize_image q width height data)
  else none

/-- The mip-generation loop of `_pr_texture_image2d` (texture.c:230-256),
run for `n` further levels below the current `width × height` image `data`:
scale the image down (`none` aborts the call, as the C code returns
`PR_FALSE` when `_image_scale_down` yields `NULL`), halve the dimensions,
write the quantized level, continue. -/
def texture_fill_mips (q : PRquantizer) (width height : Nat) (format : Nat)
    (data : PRimage) : Nat → Option (List Nat)
  | 0 => some []
  | n + 1 =>
    match _image_scale_down width height format data with
    | none => none
    | some scaled =>
      (texture_fill_mips q (halve width) (halve height) format scaled n).map
        (quantize_image q (halve width) (halve height) scaled ++ ·)

/-- Overwrite the texel contents through the existing pointer (the in-place
fill of an unchanged allocation); a null pointer stays null. -/
def set_texels (t : pr_texture) (bytes : List Nat) : pr_texture :=
  { t with texels := t.texels.map fun p => (p.1, bytes) }

/-- `_pr_texture_image2d` (texture.c:159-262).  Inputs beyond the C
signature: `q` stands for the external color conversion at the dither setting of the call
setting, `lastError` is the incoming process-wide last error, and
`nextAllocId` is the next fresh allocation identifier.  Returns the success
flag, the texture after the call (`none` only mirrors a null input handle),
the last error after the call, and the next fresh allocation identifier.

Path by path, following the source: a null handle records `NullPointer` and
fails; a zero dimension records `InvalidArgument` and fails; the mip count
and texel total are those of the halving loop; storage is reallocated
exactly when width, height or mip count differ from the stored ones; the
level-0 write goes through `_texture_subimage2d`, which on a bad format
records `InvalidArgument` without writing — after which the source still
returns `PR_TRUE` unless the mip loop runs, whose first `_image_scale_down`
then yields `NULL`, records `InvalidArgument` and returns `PR_FALSE`.  On
the good format the buffer receives the concatenated levels (the source
advances `texels` by exactly the size of each level just written). -/
def _pr_texture_image2d (q : PRquantizer) (texture : Option pr_texture)
    (width height : Nat) (format : Nat) (data : PRimage)
    (generateMips : Bool) (lastError : PRerror) (nextAllocId : Nat) :
    Bool × Option pr_texture × PRerror × Nat :=
  match texture with
  | none => (false, none, PRerror.nullPointer, nextAllocId)
  | some tex =>
    if width = 0 ∨ height = 0 then
      (false, some tex, PRerror.invalidArgument, nextAllocId)
    else
      let mips := if generateMips then mipChainCount width height else 1
      let numTexels := if generateMips then mipChainTexels width height else width * height
      let tex1 : pr_texture :=
        if tex.width ≠ width ∨ tex.height ≠ height ∨ tex.mips ≠ mips then
          { width := width, height := height, mips := mips,
            texels := some (nextAllocId, List.replicate numTexels 0) }
        else tex
      let nextId :=
        if tex.width ≠ width ∨ tex.height ≠ height ∨ tex.mips ≠ mips then nextAllocId + 1
        else nextAllocId
      match _texture_subimage2d q width height format data with
      | none =>
        if generateMips ∧ 1 < mips then
          (false, some tex1, PRerror.invalidArgument, nextId)
        else
          (true, some tex1, PRerror.invalidArgument, nextId)
      | some level0 =>
        match texture_fill_mips q width height format data (if generateMips then mips - 1 else 0) with
        | none => (false, some tex1, PRerror.invalidArgument, nextId)
        | some rest =>
          (true, some (set_texels tex1 (level0 ++ rest)), lastError, nextId)

/-- `_pr_texture_subimage2d` (texture.c:264-283), with the bounds test
verbatim from the source (over `Nat` the unsigned comparisons `x < 0`,
`y < 0` are constantly false, exactly as in C); `_texture_subimage2d_rect`
is an empty stub in the source, so a passing call changes nothing.  Returns
the success flag and the last error after the call. -/
def _pr_texture_subimage2d (texture : Option pr_texture)
    (mip x y width height : Nat) (lastError : PRerror) : Bool × PRerror :=
  match texture with
  | none => (false, PRerror.nullPointer)
  | some t =>
    if t.texels = none ∨ x < 0 ∨ y < 0 ∨ x + width ≥ t.width ∨ y + height ≥ t.height
        ∨ width ≤ 0 ∨ height ≤ 0 ∨ mip ≥ t.mips then
      (false, PRerror.invalidArgument)
    else
      (true, lastError)

/-- The offset accumulated by the `while (mip > 0)` loop of
`_pr_texture_select_miplevel` (texture.c:308-318): step past `w*h` texels
and halve, `mip` times. -/
def miplevel_offset (w h : Nat) : Nat → Nat
  | 0 => 0
  | m + 1 => w * h + miplevel_offset (halve w) (halve h) m

/-- `_pr_texture_select_miplevel` (texture.c:294-321): clamp the level,
report the level dimensions through `PR_MIP_SIZE`, and return the texel
pointer as an offset from the base of the storage. -/
def _pr_texture_select_miplevel (t : pr_texture) (mip : Nat) : Nat × Nat × Nat :=
  let mip := PR_CLAMP mip 0 (t.mips - 1)
  (miplevel_offset t.width t.height mip, PR_MIP_SIZE t.width mip, PR_MIP_SIZE t.height mip)

/-- Truncation of a rational toward zero: the C cast of a float to `PRint`
used by `_pr_texture_sample_nearest`. -/
def ratTrunc (q : ℚ) : ℤ := if q < 0 then -⌊-q⌋ else ⌊q⌋

/-- The texel coordinate computation of `_pr_texture_sample_nearest`
(texture.c:332-338) for one axis:
`x = (PRint)((u - (PRint)u)*size); if (x < 0) x += size;`. -/
def wrap_coord (u : ℚ) (size : Nat) : ℤ :=
  let x := ratTrunc ((u - (ratTrunc u : ℤ)) * (size : ℚ))
  if x < 0 then x + size else x

/-- The addressing described by the words of the spec for `sample_nearest` (spec
§4.2): first wrap `u` into `[0,1)` — fractional part, a negative fractional
part corrected by adding 1 — and only then scale and truncate.  Written from
the spec, to be compared with `wrap_coord`, which is written from the
source. -/
def wrap_coord_spec (u : ℚ) (size : Nat) : ℤ :=
  let f := u - (ratTrunc u : ℤ)
  let f := if f < 0 then f + 1 else f
  ratTrunc (f * (size : ℚ))

/-- `_pr_texture_sample_nearest` (texture.c:329-342): wrap both coordinates,
then read `mipTexels[y*width + x]`. -/
def _pr_texture_sample_nearest (mipTexels : List Nat) (width height : Nat)
    (u v : ℚ) : Nat :=
  mipTexels.getD (wrap_coord v height * width + wrap_coord u width).toNat 0

/-- The RGB image pyramid the mip loop of `_pr_texture_image2d` walks:
level 0 is the data of the caller, level `L+1` is level `L` scaled down at
the dimensions of level `L` (`prevData` in texture.c:227-240 — always the RGB buffer of
the preceding level, never its quantized indices). -/
def rgb_pyramid (w h : Nat) (data : PRimage) : Nat → PRimage
  | 0 => data
  | L + 1 => _image_scale_down_ubyte_rgb (halve^[L] w) (halve^[L] h) (rgb_pyramid w h data L)

/-! ## Arithmetic of the halving chain -/

theorem halve_pos {n : Nat} (h : 1 ≤ n) : 1 ≤ halve n := by
  simp only [halve]; split <;> omega

theorem halve_mono : Monotone halve := by
  intro a b hab
  simp only [halve]
  split <;> split <;> omega

theorem halve_max (w h : Nat) : halve (max w h) = max (halve w) (halve h) :=
  halve_mono.map_max

theorem mipChainCount_pos (w h : Nat) : 1 ≤ mipChainCount w h := by
  rw [mipChainCount]
  split <;> omega

theorem PR_MIP_SIZE_zero (s : Nat) (hs : 1 ≤ s) : PR_MIP_SIZE s 0 = s := by
  simp only [PR_MIP_SIZE, Nat.shiftRight_zero]
  omega

theorem PR_MIP_SIZE_halve (s L : Nat) (hs : 1 ≤ s) :
    PR_MIP_SIZE s (L + 1) = PR_MIP_SIZE (halve s) L := by
  simp only [PR_MIP_SIZE, halve, Nat.shiftRight_eq_div_pow]
  rcases Nat.lt_or_ge s 2 with h2 | h2
  · have hs1 : s = 1 := by omega
    subst hs1
    have ha : 1 / 2 ^ (L + 1) ≤ 1 := Nat.div_le_self _ _
    have hb : 1 / 2 ^ L ≤ 1 := Nat.div_le_self _ _
    simp only [if_neg (by omega : ¬ (1:Nat) < 1)]
    omega
  · rw [if_pos (by omega : (1:Nat) < s), Nat.div_div_eq_div_mul, pow_succ,
      Nat.mul_comm 2 (2 ^ L)]

theorem mipChainCount_eq_log2 (w h : Nat) (hw : 1 ≤ w) (hh : 1 ≤ h) :
    mipChainCount w h = Nat.log2 (max w h) + 1 := by
  induction w, h using mipChainCount.induct with
  | case1 w h hc =>
    have hw1 : w = 1 := by omega
    have hh1 : h = 1 := by omega
    subst hw1; subst hh1
    rw [mipChainCount, if_pos (by omega)]
    simp [Nat.log2_eq_log_two, Nat.log_one_right]
  | case2 w h hc ih =>
    have hw' : 1 ≤ halve w := halve_pos hw
    have hh' : 1 ≤ halve h := halve_pos hh
    have hM : 2 ≤ max w h := by
      rcases not_and_or.mp hc with hcw | hch <;> omega
    have hstep : Nat.log2 (max w h) = Nat.log2 (max (halve w) (halve h)) + 1 := by
      rw [← halve_max]
      have hhalve : halve (max w h) = max w h / 2 := by
        simp only [halve]; rw [if_pos (by omega : 1 < max w h)]
      rw [hhalve]
      simp only [Nat.log2_eq_log_two]
      have hdiv := Nat.log_div_base 2 (max w h)
      have hpos : 0 < Nat.log 2 (max w h) := Nat.log_pos (by omega) hM
      omega
    rw [mipChainCount, if_neg hc, ih hw' hh', hstep]
    omega

theorem mipChainTexels_eq_sum (w h : Nat) (hw : 1 ≤ w) (hh : 1 ≤ h) :
    mipChainTexels w h
      = ∑ L ∈ Finset.range (mipChainCount w h), PR_MIP_SIZE w L * PR_MIP_SIZE h L := by
  induction w, h using mipChainTexels.induct with
  | case1 w h hc =>
    have hw1 : w = 1 := by omega
    have hh1 : h = 1 := by omega
    subst hw1; subst hh1
    rw [mipChainTexels, if_pos (by omega), mipChainCount, if_pos (by omega)]
    simp [PR_MIP_SIZE]
  | case2 w h hc ih =>
    have hw' : 1 ≤ halve w := halve_pos hw
    have hh' : 1 ≤ halve h := halve_pos hh
    rw [mipChainTexels, if_neg hc, mipChainCount, if_neg hc, ih hw' hh',
      Nat.add_comm 1 (mipChainCount (halve w) (halve h)), Finset.sum_range_succ']
    have hshift : ∀ L, PR_MIP_SIZE w (L + 1) * PR_MIP_SIZE h (L + 1)
        = PR_MIP_SIZE (halve w) L * PR_MIP_SIZE (halve h) L := by
      intro L
      rw [PR_MIP_SIZE_halve w L hw, PR_MIP_SIZE_halve h L hh]
    simp only [hshift, PR_MIP_SIZE_zero w hw, PR_MIP_SIZE_zero h hh]
    omega

theorem miplevel_offset_eq_sum (m : Nat) :
    ∀ w h : Nat, 1 ≤ w → 1 ≤ h →
      miplevel_offset w h m
        = ∑ K ∈ Finset.range m, PR_MIP_SIZE w K * PR_MIP_SIZE h K := by
  induction m with
  | zero => intro w h _ _; simp [miplevel_offset]
  | succ m ih =>
    intro w h hw hh
    rw [miplevel_offset, ih (halve w) (halve h) (halve_pos hw) (halve_pos hh),
      Finset.sum_range_succ']
    have hshift : ∀ K, PR_MIP_SIZE w (K + 1) * PR_MIP_SIZE h (K + 1)
        = PR_MIP_SIZE (halve w) K * PR_MIP_SIZE (halve h) K := by
      intro K
      rw [PR_MIP_SIZE_halve w K hw, PR_MIP_SIZE_halve h K hh]
    simp only [hshift, PR_MIP_SIZE_zero w hw, PR_MIP_SIZE_zero h hh]
    omega

/-! ## The mip-fill loop on the accepted format -/

theorem quantize_image_length (q : PRquantizer) (w h : Nat) (data : PRimage) :
    (quantize_image q w h data).length = w * h := by
  simp [quantize_image]

theorem texture_fill_mips_rgb (q : PRquantizer) (w h : Nat)
    (hw : 1 ≤ w) (hh : 1 ≤ h) (data : PRimage) :
    ∃ rest : List Nat,
      texture_fill_mips q w h PR_IMAGE_FORMAT_UBYTE_RGB data (mipChainCount w h - 1)
        = some rest ∧
      w * h + rest.length = mipChainTexels w h := by
  induction w, h using mipChainCount.induct generalizing data with
  | case1 w h hc =>
    refine ⟨[], ?_, ?_⟩
    · rw [mipChainCount, if_pos hc]
      simp [texture_fill_mips]
    · rw [mipChainTexels, if_pos hc]
      simp
  | case2 w h hc ih =>
    have hw' : 1 ≤ halve w := halve_pos hw
    have hh' : 1 ≤ halve h := halve_pos hh
    obtain ⟨rest', hfill', hlen'⟩ :=
      ih hw' hh' (_image_scale_down_ubyte_rgb w h data)
    have hc1 : 1 ≤ mipChainCount (halve w) (halve h) := mipChainCount_pos _ _
    have hcount : mipChainCount w h - 1 = (mipChainCount (halve w) (halve h) - 1) + 1 := by
      rw [mipChainCount, if_neg hc]
      omega
    refine ⟨quantize_image q (halve w) (halve h) (_image_scale_down_ubyte_rgb w h data)
        ++ rest', ?_, ?_⟩
    · rw [hcount]
      simp [texture_fill_mips, _image_scale_down, hfill']
    · rw [mipChainTexels, if_neg hc, ← hlen']
      simp only [List.length_append, quantize_image_length]

/-- The result of `_pr_texture_image2d` on the accepted format with mip
generation, in closed form: the call succeeds, storage is reallocated
exactly when width, height or mip count changed, and the buffer receives
level 0 followed by the generated mip levels. -/
theorem image2d_rgb_eq (q : PRquantizer) (tex : pr_texture) (w h : Nat)
    (data : PRimage) (le : PRerror) (nid : Nat) (hw : 1 ≤ w) (hh : 1 ≤ h) :
    ∃ rest : List Nat,
      w * h + rest.length = mipChainTexels w h ∧
      texture_fill_mips q w h PR_IMAGE_FORMAT_UBYTE_RGB data (mipChainCount w h - 1)
        = some rest ∧
      _pr_texture_image2d q (some tex) w h PR_IMAGE_FORMAT_UBYTE_RGB data true le nid
        = (true,
           some (set_texels
             (if tex.width ≠ w ∨ tex.height ≠ h ∨ tex.mips ≠ mipChainCount w h then
               { width := w, height := h, mips := mipChainCount w h,
                 texels := some (nid, List.replicate (mipChainTexels w h) 0) }
              else tex)
             (quantize_image q w h data ++ rest)),
           le,
           if tex.width ≠ w ∨ tex.height ≠ h ∨ tex.mips ≠ mipChainCount w h then nid + 1
           else nid) := by
  obtain ⟨rest, hfill, hlen⟩ := texture_fill_mips_rgb q w h hw hh data
  refine ⟨rest, hlen, hfill, ?_⟩
  simp only [_pr_texture_image2d, _texture_subimage2d]
  rw [if_neg (show ¬(w = 0 ∨ h = 0) by omega)]
  simp only [eq_self_iff_true, if_true, hfill]

/-- The result of `_pr_texture_image2d` on a rejected format, in closed
form: the level-0 write records `InvalidArgument` without writing, and the
call still returns success unless the mip loop runs (mip generation
requested and more than one level), whose first `_image_scale_down` then
fails.  Reallocation happens either way, before the format is ever
examined. -/
theorem image2d_badfmt_eq (q : PRquantizer) (tex : pr_texture) (w h : Nat)
    (format : Nat) (data : PRimage) (generateMips : Bool) (le : PRerror) (nid : Nat)
    (hw : 1 ≤ w) (hh : 1 ≤ h) (hfmt : format ≠ PR_IMAGE_FORMAT_UBYTE_RGB) :
    _pr_texture_image2d q (some tex) w h format data generateMips le nid
      = (let mips := if generateMips then mipChainCount w h else 1
         let numTexels := if generateMips then mipChainTexels w h else w * h
         let tex1 := if tex.width ≠ w ∨ tex.height ≠ h ∨ tex.mips ≠ mips then
             ({ width := w, height := h, mips := mips,
                texels := some (nid, List.replicate numTexels 0) } : pr_texture)
           else tex
         let nid1 := if tex.width ≠ w ∨ tex.height ≠ h ∨ tex.mips ≠ mips then nid + 1 else nid
         if generateMips = true ∧ 1 < mips then (false, some tex1, PRerror.invalidArgument, nid1)
         else (true, some tex1, PRerror.invalidArgument, nid1)) := by
  simp only [_pr_texture_image2d, _texture_subimage2d]
  rw [if_neg (show ¬(w = 0 ∨ h = 0) by omega), if_neg hfmt]

/-! ## Claim C1: stored mip count -/

/-- Claim C1, counterexample to the claim as stated.  A successful 5×5 upload
with mip generation stores 3 mip levels (5 → 2 → 1), not
ceil(log2 5) + 1 = 4 as the clause "a base size of 5 gives 4" requires. -/
theorem C1_counterexample :
    (_pr_texture_image2d _pr_color_to_colorindex_r3g3b2 (some _pr_texture_create) 5 5
        PR_IMAGE_FORMAT_UBYTE_RGB (fun _ _ _ => 0) true PRerror.noError 0).1 = true ∧
    Option.map pr_texture.mips
        (_pr_texture_image2d _pr_color_to_colorindex_r3g3b2 (some _pr_texture_create) 5 5
          PR_IMAGE_FORMAT_UBYTE_RGB (fun _ _ _ => 0) true PRerror.noError 0).2.1
      = some 3 ∧
    Nat.clog 2 (max 5 5) + 1 = 4 := by
  obtain ⟨rest, hlen, hfill, heq⟩ := image2d_rgb_eq _pr_color_to_colorindex_r3g3b2
    _pr_texture_create 5 5 (fun _ _ _ => 0) PRerror.noError 0 (by omega) (by omega)
  rw [heq]
  refine ⟨rfl, ?_, ?_⟩
  · simp [set_texels, _pr_texture_create, mipChainCount, halve]
  · simp [Nat.clog]

/-- Claim C1 as amended: for every call to `_pr_texture_image2d` with
`generateMips` true and nonzero width and height that returns success, the
stored mip count of the texture equals `floor(log2(max(width, height))) + 1`
(so base size 1 gives 1 level, 2 gives 2, 5 gives 3, and 256 gives 9). -/
theorem C1_stored_mip_count (q : PRquantizer) (tex : pr_texture) (w h : Nat)
    (format : Nat) (data : PRimage) (le : PRerror) (nid : Nat)
    (hw : w ≠ 0) (hh : h ≠ 0)
    (hs : (_pr_texture_image2d q (some tex) w h format data true le nid).1 = true) :
    Option.map pr_texture.mips
        (_pr_texture_image2d q (some tex) w h format data true le nid).2.1
      = some (Nat.log2 (max w h) + 1) := by
  rw [← mipChainCount_eq_log2 w h (by omega) (by omega)]
  by_cases hfmt : format = PR_IMAGE_FORMAT_UBYTE_RGB
  · subst hfmt
    obtain ⟨rest, hlen, hfill, heq⟩ := image2d_rgb_eq q tex w h data le nid (by omega) (by omega)
    rw [heq]
    by_cases hre : tex.width ≠ w ∨ tex.height ≠ h ∨ tex.mips ≠ mipChainCount w h
    · rw [if_pos hre]
      rfl
    · rw [if_neg hre]
      push_neg at hre
      simp [set_texels, hre.2.2]
  · rw [image2d_badfmt_eq q tex w h format data true le nid (by omega) (by omega) hfmt]
    simp only [if_true, eq_self_iff_true, true_and]
    by_cases hmip : 1 < mipChainCount w h
    · rw [if_pos hmip]
      by_cases hre : tex.width ≠ w ∨ tex.height ≠ h ∨ tex.mips ≠ mipChainCount w h
      · rw [if_pos hre]
        rfl
      · rw [if_neg hre]
        push_neg at hre
        simp [hre.2.2]
    · rw [if_neg hmip]
      by_cases hre : tex.width ≠ w ∨ tex.height ≠ h ∨ tex.mips ≠ mipChainCount w h
      · rw [if_pos hre]
        rfl
      · rw [if_neg hre]
        push_neg at hre
        simp [hre.2.2]

/-- Claim C1, witness: the amended claim applied to a concrete successful
256×256 upload, whose stored mip count is floor(log2 256) + 1 = 9. -/
theorem C1_stored_mip_count_witness :
    (_pr_texture_image2d _pr_color_to_colorindex_r3g3b2 (some _pr_texture_create) 256 256
        PR_IMAGE_FORMAT_UBYTE_RGB (fun _ _ _ => 0) true PRerror.noError 0).1 = true ∧
    Option.map pr_texture.mips
        (_pr_texture_image2d _pr_color_to_colorindex_r3g3b2 (some _pr_texture_create) 256 256
          PR_IMAGE_FORMAT_UBYTE_RGB (fun _ _ _ => 0) true PRerror.noError 0).2.1
      = some 9 := by
  have hs : (_pr_texture_image2d _pr_color_to_colorindex_r3g3b2 (some _pr_texture_create)
      256 256 PR_IMAGE_FORMAT_UBYTE_RGB (fun _ _ _ => 0) true PRerror.noError 0).1 = true := by
    obtain ⟨rest, hlen, hfill, heq⟩ := image2d_rgb_eq _pr_color_to_colorindex_r3g3b2
      _pr_texture_create 256 256 (fun _ _ _ => 0) PRerror.noError 0 (by omega) (by omega)
    rw [heq]
  refine ⟨hs, ?_⟩
  rw [C1_stored_mip_count _pr_color_to_colorindex_r3g3b2 _pr_texture_create 256 256
    PR_IMAGE_FORMAT_UBYTE_RGB (fun _ _ _ => 0) PRerror.noError 0 (by omega) (by omega) hs]
  norm_num [Nat.log2]

/-! ## Claim C4: total texel bytes of the mip chain -/

/-- Claim C4: after every successful `_pr_texture_image2d` upload (accepted
format) with `generateMips` true, the texel buffer holds exactly
`∑ L < mipCount, max(width >> L, 1) * max(height >> L, 1)` bytes.  The
hypothesis on `tex` excludes the unreachable state of a texture with
nonzero stored width but a null texel pointer (the C code would write
through a null pointer there); every texture produced by
`_pr_texture_create` and `_pr_texture_image2d` satisfies it. -/
theorem C4_total_texel_bytes (q : PRquantizer) (tex : pr_texture) (w h : Nat)
    (data : PRimage) (le : PRerror) (nid : Nat)
    (hw : 1 ≤ w) (hh : 1 ≤ h) (htex : tex.texels = none → tex.width = 0) :
    (_pr_texture_image2d q (some tex) w h PR_IMAGE_FORMAT_UBYTE_RGB data true le nid).1
      = true ∧
    ∃ t' : pr_texture, ∃ i : Nat, ∃ bytes : List Nat,
      (_pr_texture_image2d q (some tex) w h PR_IMAGE_FORMAT_UBYTE_RGB data true le nid).2.1
        = some t' ∧
      t'.texels = some (i, bytes) ∧
      t'.mips = mipChainCount w h ∧
      bytes.length = ∑ L ∈ Finset.range t'.mips, max (w >>> L) 1 * max (h >>> L) 1 := by
  obtain ⟨rest, hlen, hfill, heq⟩ := image2d_rgb_eq q tex w h data le nid hw hh
  rw [heq]
  refine ⟨rfl, ?_⟩
  have hsum : (quantize_image q w h data ++ rest).length
      = ∑ L ∈ Finset.range (mipChainCount w h), max (w >>> L) 1 * max (h >>> L) 1 := by
    have := mipChainTexels_eq_sum w h hw hh
    simp only [PR_MIP_SIZE] at this
    simp only [List.length_append, quantize_image_length]
    omega
  by_cases hre : tex.width ≠ w ∨ tex.height ≠ h ∨ tex.mips ≠ mipChainCount w h
  · rw [if_pos hre]
    exact ⟨_, nid, quantize_image q w h data ++ rest, rfl, rfl, rfl, hsum⟩
  · rw [if_neg hre]
    push_neg at hre
    obtain ⟨i0, bs0, htx⟩ : ∃ i0 bs0, tex.texels = some (i0, bs0) := by
      rcases htx : tex.texels with _ | p
      · exact absurd (htex htx) (by omega)
      · exact ⟨p.1, p.2, by simp⟩
    refine ⟨set_texels tex (quantize_image q w h data ++ rest), i0,
      quantize_image q w h data ++ rest, rfl, ?_, ?_, ?_⟩
    · simp [set_texels, htx]
    · simpa [set_texels] using hre.2.2
    · rw [show (set_texels tex (quantize_image q w h data ++ rest)).mips = tex.mips from rfl,
        hre.2.2]
      exact hsum

/-- Claim C4, witness: the theorem applied to a concrete 4×4 upload with mips;
the stored chain has 3 levels and 16 + 4 + 1 = 21 texel bytes. -/
theorem C4_total_texel_bytes_witness :
    (_pr_texture_image2d _pr_color_to_colorindex_r3g3b2 (some _pr_texture_create) 4 4
        PR_IMAGE_FORMAT_UBYTE_RGB (fun _ _ _ => 0) true PRerror.noError 0).1 = true ∧
    ∃ t' : pr_texture, ∃ i : Nat, ∃ bytes : List Nat,
      (_pr_texture_image2d _pr_color_to_colorindex_r3g3b2 (some _pr_texture_create) 4 4
          PR_IMAGE_FORMAT_UBYTE_RGB (fun _ _ _ => 0) true PRerror.noError 0).2.1
        = some t' ∧
      t'.texels = some (i, bytes) ∧ t'.mips = 3 ∧ bytes.length = 16 + 4 + 1 := by
  obtain ⟨hret, t', i, bytes, h1, h2, h3, h4⟩ :=
    C4_total_texel_bytes _pr_color_to_colorindex_r3g3b2 _pr_texture_create 4 4
      (fun _ _ _ => 0) PRerror.noError 0 (by omega) (by omega) (fun _ => rfl)
  have hm : mipChainCount 4 4 = 3 := by simp [mipChainCount, halve]
  refine ⟨hret, t', i, bytes, h1, h2, by rw [h3, hm], ?_⟩
  rw [h4, h3, hm]
  decide

/-- The result of `_pr_texture_image2d` on the accepted format without mip
generation, in closed form: one level, `width*height` texels. -/
theorem image2d_rgb_nomips_eq (q : PRquantizer) (tex : pr_texture) (w h : Nat)
    (data : PRimage) (le : PRerror) (nid : Nat) (hw : 1 ≤ w) (hh : 1 ≤ h) :
    _pr_texture_image2d q (some tex) w h PR_IMAGE_FORMAT_UBYTE_RGB data false le nid
      = (true,
         some (set_texels
           (if tex.width ≠ w ∨ tex.height ≠ h ∨ tex.mips ≠ 1 then
             { width := w, height := h, mips := 1,
               texels := some (nid, List.replicate (w * h) 0) }
            else tex)
           (quantize_image q w h data)),
         le,
         if tex.width ≠ w ∨ tex.height ≠ h ∨ tex.mips ≠ 1 then nid + 1 else nid) := by
  simp only [_pr_texture_image2d, _texture_subimage2d]
  rw [if_neg (show ¬(w = 0 ∨ h = 0) by omega)]
  simp only [Bool.false_eq_true, if_false, texture_fill_mips, List.append_nil,
    eq_self_iff_true, if_true]

/-! ## Claim C2: validation behavior of the upload -/

/-- Claim C2, counterexample to the claim as stated.  An upload with an
unsupported format (and `generateMips` false) records `InvalidArgument` but
still returns success: the format check lives in `_texture_subimage2d`,
whose early return `_pr_texture_image2d` never inspects. -/
theorem C2_counterexample :
    (_pr_texture_image2d _pr_color_to_colorindex_r3g3b2 (some _pr_texture_create) 1 1
        (PR_IMAGE_FORMAT_UBYTE_RGB + 1) (fun _ _ _ => 0) false PRerror.noError 0).1
      = true ∧
    (_pr_texture_image2d _pr_color_to_colorindex_r3g3b2 (some _pr_texture_create) 1 1
        (PR_IMAGE_FORMAT_UBYTE_RGB + 1) (fun _ _ _ => 0) false PRerror.noError 0).2.2.1
      = PRerror.invalidArgument := by
  constructor <;> rfl

/-- Claim C2 as amended: `_pr_texture_image2d` fails with `NullPointer` on a
null handle and with `InvalidArgument` on a zero width or height; on an
unsupported format it records `InvalidArgument` but returns the failure
indicator only when `generateMips` is true and the mip chain has more than
one level — otherwise it returns success despite the recorded error. -/
theorem C2_validation (q : PRquantizer) (w h format : Nat) (data : PRimage)
    (generateMips : Bool) (le : PRerror) (nid : Nat) :
    (_pr_texture_image2d q none w h format data generateMips le nid
        = (false, none, PRerror.nullPointer, nid)) ∧
    (∀ tex : pr_texture, w = 0 ∨ h = 0 →
        _pr_texture_image2d q (some tex) w h format data generateMips le nid
          = (false, some tex, PRerror.invalidArgument, nid)) ∧
    (∀ tex : pr_texture, w ≠ 0 → h ≠ 0 → format ≠ PR_IMAGE_FORMAT_UBYTE_RGB →
        (_pr_texture_image2d q (some tex) w h format data generateMips le nid).2.2.1
            = PRerror.invalidArgument ∧
        ((_pr_texture_image2d q (some tex) w h format data generateMips le nid).1 = false
          ↔ generateMips = true ∧ 1 < mipChainCount w h)) := by
  refine ⟨rfl, ?_, ?_⟩
  · intro tex h0
    simp only [_pr_texture_image2d]
    rw [if_pos h0]
  · intro tex hw0 hh0 hfmt
    rw [image2d_badfmt_eq q tex w h format data generateMips le nid (by omega) (by omega) hfmt]
    cases generateMips with
    | false =>
      constructor
      · rfl
      · simp
    | true =>
      simp only [if_true, eq_self_iff_true, true_and]
      by_cases hmip : 1 < mipChainCount w h
      · rw [if_pos hmip]
        simp [hmip]
      · rw [if_neg hmip]
        simp [hmip]

/-- Claim C2, witness: the amended claim at concrete inputs — a null handle,
a zero width, and an unsupported format with mip generation on a 2×2 base
(chain length 2), which does return failure. -/
theorem C2_validation_witness :
    (_pr_texture_image2d _pr_color_to_colorindex_r3g3b2 none 2 2 0 (fun _ _ _ => 0)
        true PRerror.noError 0
      = (false, none, PRerror.nullPointer, 0)) ∧
    (_pr_texture_image2d _pr_color_to_colorindex_r3g3b2 (some _pr_texture_create) 0 2 0
        (fun _ _ _ => 0) true PRerror.noError 0
      = (false, some _pr_texture_create, PRerror.invalidArgument, 0)) ∧
    (_pr_texture_image2d _pr_color_to_colorindex_r3g3b2 (some _pr_texture_create) 2 2
        (PR_IMAGE_FORMAT_UBYTE_RGB + 1) (fun _ _ _ => 0) true PRerror.noError 0).2.2.1
      = PRerror.invalidArgument ∧
    (_pr_texture_image2d _pr_color_to_colorindex_r3g3b2 (some _pr_texture_create) 2 2
        (PR_IMAGE_FORMAT_UBYTE_RGB + 1) (fun _ _ _ => 0) true PRerror.noError 0).1
      = false := by
  have h1 := (C2_validation _pr_color_to_colorindex_r3g3b2 2 2 0 (fun _ _ _ => 0)
    true PRerror.noError 0).1
  have h2 := (C2_validation _pr_color_to_colorindex_r3g3b2 0 2 0 (fun _ _ _ => 0)
    true PRerror.noError 0).2.1 _pr_texture_create (Or.inl rfl)
  have h3 := (C2_validation _pr_color_to_colorindex_r3g3b2 2 2
    (PR_IMAGE_FORMAT_UBYTE_RGB + 1) (fun _ _ _ => 0) true PRerror.noError 0).2.2
    _pr_texture_create (by omega) (by omega) (by simp [PR_IMAGE_FORMAT_UBYTE_RGB])
  refine ⟨h1, h2, h3.1, h3.2.mpr ⟨rfl, ?_⟩⟩
  simp [mipChainCount, halve]

/-! ## Claim C8: reallocation policy -/

/-- The texture and allocation counter left by `_pr_texture_image2d` on a
rejected format: exactly the reallocation decision, made before the format
is examined. -/
theorem image2d_badfmt_texstate (q : PRquantizer) (tex : pr_texture) (w h format : Nat)
    (data : PRimage) (generateMips : Bool) (le : PRerror) (nid : Nat)
    (hw : 1 ≤ w) (hh : 1 ≤ h) (hfmt : format ≠ PR_IMAGE_FORMAT_UBYTE_RGB) :
    (_pr_texture_image2d q (some tex) w h format data generateMips le nid).2.1
      = some (if tex.width ≠ w ∨ tex.height ≠ h
            ∨ tex.mips ≠ (if generateMips then mipChainCount w h else 1) then
          { width := w, height := h,
            mips := if generateMips then mipChainCount w h else 1,
            texels := some (nid,
              List.replicate (if generateMips then mipChainTexels w h else w * h) 0) }
         else tex) ∧
    (_pr_texture_image2d q (some tex) w h format data generateMips le nid).2.2.2
      = (if tex.width ≠ w ∨ tex.height ≠ h
            ∨ tex.mips ≠ (if generateMips then mipChainCount w h else 1) then nid + 1
         else nid) := by
  rw [image2d_badfmt_eq q tex w h format data generateMips le nid hw hh hfmt]
  by_cases hd : generateMips = true
      ∧ 1 < (if generateMips then mipChainCount w h else 1)
  · simp only [if_pos hd]
    exact ⟨by trivial, by trivial⟩
  · simp only [if_neg hd]
    exact ⟨by trivial, by trivial⟩

/-- Claim C8: a call to `_pr_texture_image2d` whose width, height and computed
mip count all equal the stored values of the texture keeps the texel storage in
place (the allocation identifier is unchanged and no fresh allocation is
consumed, only the contents are rewritten); if any of the three differs, the
storage is replaced by a fresh allocation whose size is the new texel total.
The hypothesis on `tex` excludes the unreachable nonzero-width texture with
a null texel pointer. -/
theorem C8_realloc_policy (q : PRquantizer) (tex : pr_texture) (w h format : Nat)
    (data : PRimage) (generateMips : Bool) (le : PRerror) (nid : Nat)
    (hw : 1 ≤ w) (hh : 1 ≤ h) (htex : tex.texels = none → tex.width = 0) :
    (tex.width = w ∧ tex.height = h
        ∧ tex.mips = (if generateMips then mipChainCount w h else 1) →
      Option.map (fun t : pr_texture => Option.map Prod.fst t.texels)
          (_pr_texture_image2d q (some tex) w h format data generateMips le nid).2.1
        = some (Option.map Prod.fst tex.texels) ∧
      (_pr_texture_image2d q (some tex) w h format data generateMips le nid).2.2.2 = nid) ∧
    (¬(tex.width = w ∧ tex.height = h
        ∧ tex.mips = (if generateMips then mipChainCount w h else 1)) →
      ∃ t' : pr_texture,
        (_pr_texture_image2d q (some tex) w h format data generateMips le nid).2.1
          = some t' ∧
        (∃ bytes : List Nat, t'.texels = some (nid, bytes) ∧
          bytes.length = (if generateMips then mipChainTexels w h else w * h)) ∧
        (_pr_texture_image2d q (some tex) w h format data generateMips le nid).2.2.2
          = nid + 1) := by
  by_cases hfmt : format = PR_IMAGE_FORMAT_UBYTE_RGB
  · subst hfmt
    cases generateMips with
    | true =>
      obtain ⟨rest, hlen, hfill, heq⟩ := image2d_rgb_eq q tex w h data le nid hw hh
      rw [heq]
      simp only [if_true]
      constructor
      · intro hsame
        have hc : ¬(tex.width ≠ w ∨ tex.height ≠ h ∨ tex.mips ≠ mipChainCount w h) := by
          tauto
        simp only [if_neg hc]
        obtain ⟨i0, bs0, htx⟩ : ∃ i0 bs0, tex.texels = some (i0, bs0) := by
          rcases htx : tex.texels with _ | p
          · exact absurd (htex htx) (by omega)
          · exact ⟨p.1, p.2, by simp⟩
        refine ⟨?_, by trivial⟩
        simp [set_texels, htx]
      · intro hdiff
        have hc : tex.width ≠ w ∨ tex.height ≠ h ∨ tex.mips ≠ mipChainCount w h := by
          tauto
        simp only [if_pos hc]
        refine ⟨_, by trivial, ⟨quantize_image q w h data ++ rest,
          by simp [set_texels], ?_⟩, by trivial⟩
        simp only [List.length_append, quantize_image_length]
        omega
    | false =>
      rw [image2d_rgb_nomips_eq q tex w h data le nid hw hh]
      simp only [Bool.false_eq_true, if_false]
      constructor
      · intro hsame
        have hc : ¬(tex.width ≠ w ∨ tex.height ≠ h ∨ tex.mips ≠ 1) := by tauto
        simp only [if_neg hc]
        obtain ⟨i0, bs0, htx⟩ : ∃ i0 bs0, tex.texels = some (i0, bs0) := by
          rcases htx : tex.texels with _ | p
          · exact absurd (htex htx) (by omega)
          · exact ⟨p.1, p.2, by simp⟩
        refine ⟨?_, by trivial⟩
        simp [set_texels, htx]
      · intro hdiff
        have hc : tex.width ≠ w ∨ tex.height ≠ h ∨ tex.mips ≠ 1 := by tauto
        simp only [if_pos hc]
        exact ⟨_, by trivial, ⟨quantize_image q w h data, by simp [set_texels],
          quantize_image_length q w h data⟩, by trivial⟩
  · obtain ⟨ht1, ht2⟩ := image2d_badfmt_texstate q tex w h format data generateMips
      le nid hw hh hfmt
    rw [ht1, ht2]
    constructor
    · intro hsame
      have hc : ¬(tex.width ≠ w ∨ tex.height ≠ h
          ∨ tex.mips ≠ (if generateMips then mipChainCount w h else 1)) := by tauto
      simp only [if_neg hc]
      exact ⟨by simp, by trivial⟩
    · intro hdiff
      have hc : tex.width ≠ w ∨ tex.height ≠ h
          ∨ tex.mips ≠ (if generateMips then mipChainCount w h else 1) := by tauto
      simp only [if_pos hc]
      exact ⟨_, by trivial, ⟨_, by trivial, by simp⟩, by trivial⟩

/-- Claim C8, witness: re-uploading 2×2 (no mips) onto a texture already
holding a 2×2 single-level chain keeps allocation 7 and consumes no fresh
id; uploading 4×4 onto it reallocates to allocation 9 of 16 bytes. -/
theorem C8_realloc_policy_witness :
    (Option.map (fun t : pr_texture => Option.map Prod.fst t.texels)
        (_pr_texture_image2d _pr_color_to_colorindex_r3g3b2
          (some ⟨2, 2, 1, some (7, List.replicate 4 0)⟩) 2 2 PR_IMAGE_FORMAT_UBYTE_RGB
          (fun _ _ _ => 0) false PRerror.noError 9).2.1
      = some (some 7) ∧
     (_pr_texture_image2d _pr_color_to_colorindex_r3g3b2
        (some ⟨2, 2, 1, some (7, List.replicate 4 0)⟩) 2 2 PR_IMAGE_FORMAT_UBYTE_RGB
        (fun _ _ _ => 0) false PRerror.noError 9).2.2.2 = 9) ∧
    (∃ t' : pr_texture,
      (_pr_texture_image2d _pr_color_to_colorindex_r3g3b2
          (some ⟨2, 2, 1, some (7, List.replicate 4 0)⟩) 4 4 PR_IMAGE_FORMAT_UBYTE_RGB
          (fun _ _ _ => 0) false PRerror.noError 9).2.1 = some t' ∧
      (∃ bytes : List Nat, t'.texels = some (9, bytes) ∧ bytes.length = 4 * 4) ∧
      (_pr_texture_image2d _pr_color_to_colorindex_r3g3b2
          (some ⟨2, 2, 1, some (7, List.replicate 4 0)⟩) 4 4 PR_IMAGE_FORMAT_UBYTE_RGB
          (fun _ _ _ => 0) false PRerror.noError 9).2.2.2 = 9 + 1) := by
  constructor
  · exact (C8_realloc_policy _pr_color_to_colorindex_r3g3b2
      ⟨2, 2, 1, some (7, List.replicate 4 0)⟩ 2 2 PR_IMAGE_FORMAT_UBYTE_RGB
      (fun _ _ _ => 0) false PRerror.noError 9 (by omega) (by omega)
      (by intro hcon; cases hcon)).1 (by simp)
  · exact (C8_realloc_policy _pr_color_to_colorindex_r3g3b2
      ⟨2, 2, 1, some (7, List.replicate 4 0)⟩ 4 4 PR_IMAGE_FORMAT_UBYTE_RGB
      (fun _ _ _ => 0) false PRerror.noError 9 (by omega) (by omega)
      (by intro hcon; cases hcon)).2 (by simp)

/-! ## Claim C6: mip level selection -/

/-- Claim C6: for a texture with at least one mip level,
`_pr_texture_select_miplevel` clamps the requested level into
`[0, mips-1]` (never failing, and leaving an in-range request unchanged),
returns the texel offset `∑ K < clamped, max(width>>K,1) * max(height>>K,1)`
from the base of the storage, and reports the level dimensions
`max(width >> clamped, 1)` and `max(height >> clamped, 1)`. -/
theorem C6_select_miplevel (t : pr_texture) (mip : Nat)
    (hm : 1 ≤ t.mips) (hw : 1 ≤ t.width) (hh : 1 ≤ t.height) :
    min mip (t.mips - 1) < t.mips ∧
    (mip < t.mips → min mip (t.mips - 1) = mip) ∧
    _pr_texture_select_miplevel t mip
      = (∑ K ∈ Finset.range (min mip (t.mips - 1)),
           max (t.width >>> K) 1 * max (t.height >>> K) 1,
         max (t.width >>> min mip (t.mips - 1)) 1,
         max (t.height >>> min mip (t.mips - 1)) 1) := by
  refine ⟨by omega, fun hlt => by omega, ?_⟩
  have hclamp : PR_CLAMP mip 0 (t.mips - 1) = min mip (t.mips - 1) := by
    simp [PR_CLAMP]
  simp only [_pr_texture_select_miplevel, hclamp, PR_MIP_SIZE,
    miplevel_offset_eq_sum (min mip (t.mips - 1)) t.width t.height hw hh]

/-- Claim C6, witness: the theorem applied to an 8×8, 4-level texture with the
out-of-range request 9, which clamps to level 3 (offset 64+16+4 = 84,
dimensions 1×1). -/
theorem C6_select_miplevel_witness :
    min 9 (4 - 1) < 4 ∧
    (9 < 4 → min 9 (4 - 1) = 9) ∧
    _pr_texture_select_miplevel ⟨8, 8, 4, some (0, List.replicate 85 0)⟩ 9
      = (∑ K ∈ Finset.range (min 9 (4 - 1)), max (8 >>> K) 1 * max (8 >>> K) 1,
         max (8 >>> min 9 (4 - 1)) 1, max (8 >>> min 9 (4 - 1)) 1) :=
  C6_select_miplevel ⟨8, 8, 4, some (0, List.replicate 85 0)⟩ 9
    (by decide) (by decide) (by decide)

/-! ## Claim C7: box blur of a uniform block -/

/-- Claim C7: the 4-way box blur of four copies of one 8-bit value returns
exactly that value, so scaling a 2×2 block of any uniform RGB color down
yields the 1×1 texel with exactly that color on every channel, with no
rounding drift. -/
theorem C7_uniform_box_blur (v : Nat) (hv : v ≤ 255)
    (c : Nat → Nat) (hc : ∀ i, c i ≤ 255) (i : Nat) :
    _color_box4_blur v v v v = v ∧
    _image_scale_down_ubyte_rgb 2 2 (fun _ _ j => c j) 0 0 i = c i := by
  constructor
  · simp only [_color_box4_blur]
    omega
  · have hci := hc i
    simp only [_image_scale_down_ubyte_rgb, _color_box4_blur,
      if_pos (by omega : (1:Nat) < 2 ∧ (1:Nat) < 2)]
    omega

/-- Claim C7, witness: the theorem at the boundary channel values of the
test of the spec (a uniform color with channels 0, 85, 255 at value 170 for the
scalar part). -/
theorem C7_uniform_box_blur_witness :
    _color_box4_blur 170 170 170 170 = 170 ∧
    _image_scale_down_ubyte_rgb 2 2 (fun _ _ j => [0, 85, 255].getD j 0) 0 0 1
      = [0, 85, 255].getD 1 0 :=
  C7_uniform_box_blur 170 (by omega) (fun j => [0, 85, 255].getD j 0)
    (by intro j; rcases j with _ | _ | _ | j <;> simp) 1

/-! ## Claim C10: sub-image bounds test -/

/-- Claim C10: `_pr_texture_subimage2d` fails with `InvalidArgument` whenever
`x + width ≥ texture->width` or `y + height ≥ texture->height` — the
comparison is against the base-level dimensions whatever the requested mip
level — so a sub-rectangle that exactly reaches the right or bottom edge
(any full-width or full-height update included) is always rejected and
never performed. -/
theorem C10_subimage_edge_reject (t : pr_texture) (mip x y width height : Nat)
    (le : PRerror)
    (hedge : t.width ≤ x + width ∨ t.height ≤ y + height) :
    _pr_texture_subimage2d (some t) mip x y width height le
      = (false, PRerror.invalidArgument) := by
  simp only [_pr_texture_subimage2d]
  rw [if_pos (by tauto)]

/-- Claim C10, witness: a full-width, one-row update of a 4×4 single-level
texture (x = 0, width = 4, exactly reaching the right edge) is rejected. -/
theorem C10_subimage_edge_reject_witness :
    _pr_texture_subimage2d (some ⟨4, 4, 1, some (0, List.replicate 16 0)⟩) 0 0 0 4 1
        PRerror.noError
      = (false, PRerror.invalidArgument) :=
  C10_subimage_edge_reject ⟨4, 4, 1, some (0, List.replicate 16 0)⟩ 0 0 0 4 1
    PRerror.noError (Or.inl (by decide))

/-! ## Truncation toward zero on the rationals -/

theorem ratTrunc_intCast (z : ℤ) : ratTrunc (z : ℚ) = z := by
  unfold ratTrunc
  split
  · rw [← Int.cast_neg, Int.floor_intCast]
    omega
  · rw [Int.floor_intCast]

/-- The fractional part `u - (PRint)u` lies strictly between -1 and 1. -/
theorem sub_ratTrunc_bounds (u : ℚ) :
    -1 < u - (ratTrunc u : ℤ) ∧ u - (ratTrunc u : ℤ) < 1 := by
  unfold ratTrunc
  split
  · rename_i hneg
    have h1 := Int.sub_one_lt_floor (-u)
    have h2 := Int.floor_le (-u)
    push_cast
    constructor <;> linarith
  · have h1 := Int.floor_le u
    have h2 := Int.lt_floor_add_one u
    constructor <;> linarith

theorem ratTrunc_lt_of_lt {q : ℚ} {n : ℤ} (hn : 0 < n) (h : q < (n : ℚ)) :
    ratTrunc q < n := by
  unfold ratTrunc
  split
  · rename_i hneg
    have : 0 ≤ ⌊-q⌋ := Int.floor_nonneg.mpr (by linarith)
    omega
  · exact Int.floor_lt.mpr h

theorem neg_lt_ratTrunc {q : ℚ} {n : ℤ} (hn : 0 < n) (h : -(n : ℚ) < q) :
    -n < ratTrunc q := by
  unfold ratTrunc
  split
  · rename_i hneg
    have : ⌊-q⌋ < n := Int.floor_lt.mpr (by linarith)
    omega
  · rename_i hpos
    have : 0 ≤ ⌊q⌋ := Int.floor_nonneg.mpr (le_of_not_lt hpos)
    omega

/-- The wrapped texel coordinate of `_pr_texture_sample_nearest` always
lands in `[0, size)`. -/
theorem wrap_coord_bounds (u : ℚ) (size : Nat) (hs : 1 ≤ size) :
    0 ≤ wrap_coord u size ∧ wrap_coord u size < size := by
  have hf := sub_ratTrunc_bounds u
  have hspos : (0 : ℚ) < (size : ℚ) := by positivity
  have hnz : (0 : ℤ) < (size : ℤ) := by exact_mod_cast hs
  have hfw_hi : (u - (ratTrunc u : ℤ)) * size < ((size : ℤ) : ℚ) := by
    have := mul_lt_mul_of_pos_right hf.2 hspos
    push_cast
    linarith
  have hfw_lo : -(((size : ℤ) : ℚ)) < (u - (ratTrunc u : ℤ)) * size := by
    have := mul_lt_mul_of_pos_right hf.1 hspos
    push_cast
    linarith
  have hx_hi := ratTrunc_lt_of_lt hnz hfw_hi
  have hx_lo := neg_lt_ratTrunc hnz hfw_lo
  simp only [wrap_coord]
  split <;> omega

/-! ## Claim C9: nearest sampling stays in bounds -/

/-- Claim C9: for every mip level of positive dimensions and all rational
texture coordinates, the texel coordinates `_pr_texture_sample_nearest`
computes satisfy `0 ≤ x < width` and `0 ≤ y < height`, and the flat index
`y*width + x` stays below `width*height`, so the sample always reads inside
the storage of the level.  (C floats are modelled by exact rationals, with the
casts to `PRint` as truncation toward zero.) -/
theorem C9_sample_in_bounds (u v : ℚ) (w h : Nat) (hw : 1 ≤ w) (hh : 1 ≤ h) :
    0 ≤ wrap_coord u w ∧ wrap_coord u w < w ∧
    0 ≤ wrap_coord v h ∧ wrap_coord v h < h ∧
    (wrap_coord v h * w + wrap_coord u w).toNat < w * h := by
  obtain ⟨h1, h2⟩ := wrap_coord_bounds u w hw
  obtain ⟨h3, h4⟩ := wrap_coord_bounds v h hh
  refine ⟨h1, h2, h3, h4, ?_⟩
  have hyw : wrap_coord v h * w ≤ ((h : ℤ) - 1) * w := by
    have : wrap_coord v h ≤ (h : ℤ) - 1 := by omega
    exact mul_le_mul_of_nonneg_right this (by positivity)
  have hidx : wrap_coord v h * w + wrap_coord u w < (w : ℤ) * h := by
    have hexp : ((h : ℤ) - 1) * w = (w : ℤ) * h - w := by ring
    omega
  have hww : ((w * h : Nat) : ℤ) = (w : ℤ) * h := by push_cast; ring
  have hf0 : 0 ≤ wrap_coord v h * w := mul_nonneg h3 (by positivity)
  omega

/-- Claim C9, witness: the theorem at `u = -1/4`, `v = 5/2` on a 4×3 level. -/
theorem C9_sample_in_bounds_witness :
    0 ≤ wrap_coord (-(1/4) : ℚ) 4 ∧ wrap_coord (-(1/4) : ℚ) 4 < 4 ∧
    0 ≤ wrap_coord (5/2 : ℚ) 3 ∧ wrap_coord (5/2 : ℚ) 3 < 3 ∧
    (wrap_coord (5/2 : ℚ) 3 * 4 + wrap_coord (-(1/4) : ℚ) 4).toNat < 4 * 3 :=
  C9_sample_in_bounds (-(1/4)) (5/2) 4 3 (by omega) (by omega)

/-! ## Claim C3: the wrap used by nearest sampling -/

theorem ratTrunc_nonneg {q : ℚ} (h : 0 ≤ q) : 0 ≤ ratTrunc q := by
  unfold ratTrunc
  split
  · rename_i hneg
    exact absurd h (not_le.mpr hneg)
  · exact Int.floor_nonneg.mpr h

/-- Claim C3, counterexample to the claim as stated.  At `u = -19/64` on a
width-4 level the code computes `trunc(-19/16) = -1` and corrects it to
texel 3, while wrapping first (`-19/64 + 1 = 45/64`) and truncating
afterwards selects texel `trunc(45/16) = 2`: the sample disagrees with the
wrap-then-truncate prescription of the spec. -/
theorem C3_counterexample :
    wrap_coord (-(19/64) : ℚ) 4 = 3 ∧
    wrap_coord_spec (-(19/64) : ℚ) 4 = 2 ∧
    _pr_texture_sample_nearest [10, 11, 12, 13] 4 1 (-(19/64)) 0 = 13 ∧
    List.getD [10, 11, 12, 13] (wrap_coord_spec (-(19/64) : ℚ) 4).toNat 0 = 12 := by
  have h1 : wrap_coord (-(19/64) : ℚ) 4 = 3 := by
    norm_num [wrap_coord, ratTrunc, Int.floor_eq_iff]
  have h2 : wrap_coord_spec (-(19/64) : ℚ) 4 = 2 := by
    norm_num [wrap_coord_spec, ratTrunc, Int.floor_eq_iff]
  have h0 : wrap_coord (0 : ℚ) 1 = 0 := by
    norm_num [wrap_coord, ratTrunc]
  refine ⟨h1, h2, ?_, by rw [h2]; rfl⟩
  simp only [_pr_texture_sample_nearest, h1, h0]
  rfl

/-- Claim C3 as amended: `_pr_texture_sample_nearest` computes the texel
coordinate by truncating `frac(u) * width` toward zero and then adding
`width` if the result is negative.  This agrees with the spec wrap-into-[0,1)-then-truncate exactly when the fractional part is
nonnegative or `frac(u) * width` is an integer; in particular sampling
`u = -0.25` on a width-4 level returns the same texel as `u = 0.75`. -/
theorem C3_wrap_equivalence :
    (∀ (u : ℚ) (size : Nat), 1 ≤ size →
        (0 ≤ u - (ratTrunc u : ℤ) ∨ ∃ z : ℤ, (u - (ratTrunc u : ℤ)) * size = (z : ℚ)) →
        wrap_coord u size = wrap_coord_spec u size) ∧
    (∀ (texels : List Nat) (h : Nat) (v : ℚ),
        _pr_texture_sample_nearest texels 4 h (-(1/4) : ℚ) v
          = _pr_texture_sample_nearest texels 4 h (3/4 : ℚ) v) := by
  constructor
  · intro u size hsz hcond
    by_cases hf : 0 ≤ u - (ratTrunc u : ℤ)
    · have hx0 : 0 ≤ ratTrunc ((u - (ratTrunc u : ℤ)) * (size : ℚ)) :=
        ratTrunc_nonneg (mul_nonneg hf (by positivity))
      simp only [wrap_coord, wrap_coord_spec, if_neg (not_lt.mpr hx0),
        if_neg (not_lt.mpr hf)]
    · obtain ⟨z, hz⟩ := hcond.resolve_left hf
      push_neg at hf
      have hspos : (0 : ℚ) < (size : ℚ) := by
        have h1 : (1 : ℚ) ≤ (size : ℚ) := by exact_mod_cast hsz
        linarith
      have hzneg : (z : ℚ) < 0 := by
        rw [← hz]
        exact mul_neg_of_neg_of_pos hf hspos
      have hzneg' : z < 0 := by exact_mod_cast hzneg
      have hcode : wrap_coord u size = z + size := by
        simp only [wrap_coord, hz, ratTrunc_intCast, if_pos hzneg']
      have hspec : wrap_coord_spec u size = z + size := by
        have harg : ((u - (ratTrunc u : ℤ)) + 1) * (size : ℚ) = ((z + size : ℤ) : ℚ) := by
          push_cast
          rw [add_mul, hz]
          ring
        simp only [wrap_coord_spec, if_pos hf, harg, ratTrunc_intCast]
      rw [hcode, hspec]
  · intro texels h v
    have hneg : wrap_coord (-(1/4) : ℚ) 4 = 3 := by
      norm_num [wrap_coord, ratTrunc, Int.floor_eq_iff]
    have hpos : wrap_coord (3/4 : ℚ) 4 = 3 := by
      norm_num [wrap_coord, ratTrunc, Int.floor_eq_iff]
    simp only [_pr_texture_sample_nearest, hneg, hpos]

/-- Claim C3, witness: the amended equivalence at `u = 3/4` (nonnegative
fractional part) on width 4, and the `u = -0.25` versus `u = 0.75`
wraparound instance on a concrete 4-texel level. -/
theorem C3_wrap_equivalence_witness :
    wrap_coord (3/4 : ℚ) 4 = wrap_coord_spec (3/4 : ℚ) 4 ∧
    _pr_texture_sample_nearest [10, 11, 12, 13] 4 1 (-(1/4) : ℚ) 0
      = _pr_texture_sample_nearest [10, 11, 12, 13] 4 1 (3/4 : ℚ) 0 :=
  ⟨C3_wrap_equivalence.1 (3/4) 4 (by omega)
      (Or.inl (by norm_num [ratTrunc, Int.floor_eq_iff])),
   C3_wrap_equivalence.2 [10, 11, 12, 13] 1 0⟩

/-! ## Claim C5: mip levels come from box-filtered RGB, then quantization -/

theorem rgb_pyramid_shift (w h : Nat) (data : PRimage) (L : Nat) :
    rgb_pyramid (halve w) (halve h) (_image_scale_down_ubyte_rgb w h data) L
      = rgb_pyramid w h data (L + 1) := by
  induction L with
  | zero => rfl
  | succ L ih =>
    show _image_scale_down_ubyte_rgb (halve^[L] (halve w)) (halve^[L] (halve h))
        (rgb_pyramid (halve w) (halve h) (_image_scale_down_ubyte_rgb w h data) L)
      = rgb_pyramid w h data (L + 1 + 1)
    rw [ih, ← Function.iterate_succ_apply, ← Function.iterate_succ_apply]
    rfl

/-- The slice of the concatenated chain at level `L` is the quantization of
the `L`-fold scaled-down RGB image. -/
theorem chain_slice (q : PRquantizer) :
    ∀ (L n w h : Nat) (data : PRimage) (rest : List Nat),
      L ≤ n →
      texture_fill_mips q w h PR_IMAGE_FORMAT_UBYTE_RGB data n = some rest →
      ((quantize_image q w h data ++ rest).drop (miplevel_offset w h L)).take
          (halve^[L] w * halve^[L] h)
        = quantize_image q (halve^[L] w) (halve^[L] h) (rgb_pyramid w h data L) := by
  intro L
  induction L with
  | zero =>
    intro n w h data rest _ _
    simp only [miplevel_offset, List.drop_zero, Function.iterate_zero, id]
    exact List.take_left' (quantize_image_length q w h data)
  | succ L ih =>
    intro n w h data rest hLn hfill
    obtain ⟨m, rfl⟩ : ∃ m, n = m + 1 := ⟨n - 1, by omega⟩
    simp only [texture_fill_mips, _image_scale_down, eq_self_iff_true, if_true] at hfill
    rcases hfit : texture_fill_mips q (halve w) (halve h) PR_IMAGE_FORMAT_UBYTE_RGB
        (_image_scale_down_ubyte_rgb w h data) m with _ | rest'
    · rw [hfit] at hfill
      cases hfill
    · rw [hfit] at hfill
      simp only [Option.map_some', Option.some.injEq] at hfill
      subst hfill
      show ((quantize_image q w h data
          ++ (quantize_image q (halve w) (halve h) (_image_scale_down_ubyte_rgb w h data)
              ++ rest')).drop
            (w * h + miplevel_offset (halve w) (halve h) L)).take
          (halve^[L + 1] w * halve^[L + 1] h)
        = quantize_image q (halve^[L + 1] w) (halve^[L + 1] h) (rgb_pyramid w h data (L + 1))
      rw [← quantize_image_length q w h data, List.drop_append,
        Function.iterate_succ_apply, Function.iterate_succ_apply,
        ← rgb_pyramid_shift]
      exact ih m (halve w) (halve h) (_image_scale_down_ubyte_rgb w h data) rest'
        (by omega) hfit

/-- Claim C5: on a successful mip-generating upload (accepted format), every
mip level `L ≥ 1` stored in the texture equals the quantization of the
box-filtered RGB image of level `L-1` — the RGB pyramid obtained by
repeatedly applying `_image_scale_down_ubyte_rgb` (2×2 averaging when both
dimensions exceed 1, strip averaging when only one does) to the caller's
original data.  The conversion `q` is arbitrary, so the level is never a
function of the already-quantized indices of level `L-1`. -/
theorem C5_mip_from_rgb (q : PRquantizer) (tex : pr_texture) (w h : Nat)
    (data : PRimage) (le : PRerror) (nid : Nat) (L : Nat)
    (hw : 1 ≤ w) (hh : 1 ≤ h) (hL : 1 ≤ L) (hLm : L < mipChainCount w h)
    (htex : tex.texels = none → tex.width = 0) :
    ∃ t' : pr_texture, ∃ i : Nat, ∃ bytes : List Nat,
      (_pr_texture_image2d q (some tex) w h PR_IMAGE_FORMAT_UBYTE_RGB data true le nid).2.1
        = some t' ∧
      t'.texels = some (i, bytes) ∧
      (bytes.drop (miplevel_offset w h L)).take (halve^[L] w * halve^[L] h)
        = quantize_image q (halve^[L] w) (halve^[L] h)
            (_image_scale_down_ubyte_rgb (halve^[L - 1] w) (halve^[L - 1] h)
              (rgb_pyramid w h data (L - 1))) := by
  obtain ⟨rest, hlen, hfill, heq⟩ := image2d_rgb_eq q tex w h data le nid hw hh
  rw [heq]
  have hslice := chain_slice q L (mipChainCount w h - 1) w h data rest (by omega) hfill
  have hpyr : quantize_image q (halve^[L] w) (halve^[L] h) (rgb_pyramid w h data L)
      = quantize_image q (halve^[L] w) (halve^[L] h)
          (_image_scale_down_ubyte_rgb (halve^[L - 1] w) (halve^[L - 1] h)
            (rgb_pyramid w h data (L - 1))) := by
    obtain ⟨L0, rfl⟩ : ∃ L0, L = L0 + 1 := ⟨L - 1, by omega⟩
    simp only [Nat.add_sub_cancel]
    rfl
  by_cases hre : tex.width ≠ w ∨ tex.height ≠ h ∨ tex.mips ≠ mipChainCount w h
  · rw [if_pos hre]
    exact ⟨_, nid, quantize_image q w h data ++ rest, rfl, rfl, hslice.trans hpyr⟩
  · rw [if_neg hre]
    push_neg at hre
    obtain ⟨i0, bs0, htx⟩ : ∃ i0 bs0, tex.texels = some (i0, bs0) := by
      rcases htx : tex.texels with _ | p
      · exact absurd (htex htx) (by omega)
      · exact ⟨p.1, p.2, by simp⟩
    refine ⟨set_texels tex (quantize_image q w h data ++ rest), i0,
      quantize_image q w h data ++ rest, rfl, ?_, hslice.trans hpyr⟩
    simp [set_texels, htx]

/-- Claim C5, witness: the theorem at a 2×2 upload with the modelled 3-3-2
quantizer and level `L = 1` — the single generated mip level is the
quantized box filter of the original data. -/
theorem C5_mip_from_rgb_witness :
    ∃ t' : pr_texture, ∃ i : Nat, ∃ bytes : List Nat,
      (_pr_texture_image2d _pr_color_to_colorindex_r3g3b2 (some _pr_texture_create) 2 2
          PR_IMAGE_FORMAT_UBYTE_RGB (fun x y j => 60 * x + 120 * y + j) true
          PRerror.noError 0).2.1
        = some t' ∧
      t'.texels = some (i, bytes) ∧
      (bytes.drop (miplevel_offset 2 2 1)).take (halve^[1] 2 * halve^[1] 2)
        = quantize_image _pr_color_to_colorindex_r3g3b2 (halve^[1] 2) (halve^[1] 2)
            (_image_scale_down_ubyte_rgb (halve^[0] 2) (halve^[0] 2)
              (rgb_pyramid 2 2 (fun x y j => 60 * x + 120 * y + j) 0)) :=
  C5_mip_from_rgb _pr_color_to_colorindex_r3g3b2 _pr_texture_create 2 2
    (fun x y j => 60 * x + 120 * y + j) PRerror.noError 0 1 (by omega) (by omega) (by omega)
    (by simp [mipChainCount, halve]) (fun _ => rfl)

end Pico
